import Mathlib

set_option maxRecDepth 8000

/-!
Verification of the InviteCode-Dashboard admin backend.

The definitions below are a shallow embedding of the backend's Python source
(FastAPI service over a Supabase store).  Database tables are modelled as Lean
lists of rows, timestamps as integers, monetary amounts (Python floats that are
only ever added) as rationals, and JSON metadata maps as structures holding the
keys the code reads or writes.  Optional / nullable values are Option types,
and Python truthiness on strings (None and "" are falsy) is made explicit.
-/

/-- Python string truthiness: None and the empty string are falsy; any other
string is kept.  This models expressions such as "a or b" over optional
strings in the source. -/
def truthy (o : Option String) : Option String :=
  match o with
  | some s => if s = "" then none else some s
  | none => none

/-- Audit entry written by assign_credits under metadata.initial_assignment or
metadata.last_assignment: the dict with keys amount, timestamp, notes
(credit_service.py lines 207-211 and 256-260). -/
structure Assignment where
  amount : Rat
  timestamp : Int
  notes : Option String
deriving DecidableEq

/-- The metadata JSON map of a credit_balance row, restricted to the two keys
the service writes.  Absent key = none. -/
structure BalanceMetadata where
  initial_assignment : Option Assignment
  last_assignment : Option Assignment
deriving DecidableEq

/-- A row of the credit_balance table (see transform_credit_balance and the
insert in assign_credits for the full column set). -/
structure CreditBalanceRow where
  user_id : String
  balance_dollars : Rat
  total_purchased : Rat
  total_used : Rat
  last_updated : Int
  metadata : BalanceMetadata
deriving DecidableEq

/-- credit_service.assign_credits (lines 187-295), restricted to its effect on
the credit_balance table.  The maybe_single query is a find? over the table;
the update path mirrors lines 200-218 (balance_dollars and total_purchased
incremented, total_used untouched, metadata.last_assignment overwritten), the
insert path mirrors lines 247-264 (metadata holds only initial_assignment).
Returns the new table together with the row the service returns. -/
def assign_credits (table : List CreditBalanceRow) (user_id : String)
    (credits_to_add : Rat) (notes : Option String) (now : Int) :
    List CreditBalanceRow × CreditBalanceRow :=
  match table.find? (fun r => r.user_id == user_id) with
  | some existing =>
      let updated : CreditBalanceRow :=
        { existing with
          balance_dollars := existing.balance_dollars + credits_to_add
          total_purchased := existing.total_purchased + credits_to_add
          last_updated := now
          metadata := { existing.metadata with
            last_assignment := some ⟨credits_to_add, now, notes⟩ } }
      (table.map (fun r => if r.user_id == user_id then updated else r), updated)
  | none =>
      let inserted : CreditBalanceRow :=
        { user_id := user_id
          balance_dollars := credits_to_add
          total_purchased := credits_to_add
          total_used := 0
          last_updated := now
          metadata := { initial_assignment := some ⟨credits_to_add, now, notes⟩
                        last_assignment := none } }
      (table ++ [inserted], inserted)

/-- Request validation of POST /credits/assign, from the Pydantic model
AssignCreditsRequest (schemas.py lines 162-166): credits_to_add carries
Field(gt=0); user_id is a plain unconstrained str. -/
def validAssignCreditsRequest (_user_id : String) (credits_to_add : Rat) : Bool :=
  decide (0 < credits_to_add)

/-- The /credits/assign endpoint as seen from the store: requests failing the
Pydantic validation are rejected before the service runs, so the table is
unchanged and no row is returned; otherwise assign_credits runs. -/
def assignCreditsEndpoint (table : List CreditBalanceRow) (user_id : String)
    (credits_to_add : Rat) (notes : Option String) (now : Int) :
    List CreditBalanceRow × Option CreditBalanceRow :=
  if validAssignCreditsRequest user_id credits_to_add then
    let res := assign_credits table user_id credits_to_add notes now
    (res.1, some res.2)
  else
    (table, none)

/-- The invite-code alphabet of generate_invite_codes:
string.ascii_uppercase + string.digits (invite_code_service.py line 56). -/
def inviteAlphabet : List Char :=
  "ABCDEFGHIJKLMNOPQRSTUVWXYZ0123456789".data

/-- One draw from the alphabet: random.choices picks an index into the
36-character alphabet. -/
def alphaChar (i : Fin 36) : Char :=
  inviteAlphabet.getD i.val 'A'

/-- A row inserted into the invite_codes table by generate_invite_codes
(invite_code_service.py lines 60-67). -/
structure InviteCodeInsert where
  code : String
  is_used : Bool
  max_uses : Nat
  current_uses : Nat
  expires_at : Int
  email_sent_to : List String
deriving DecidableEq

/-- invite_code_service.generate_invite_codes (lines 45-76).  The random
draws of random.choices are determinised by a stream rand of indices into the
alphabet; loop iteration i consumes draws 5*i .. 5*i+4 to build the code
"NA" + 5 alphabet characters.  Returns the codes list the service returns
together with the rows it inserts (no collision check against existing
codes). -/
def generate_invite_codes (count : Nat) (max_uses : Nat) (expires_at : Int)
    (rand : Nat → Fin 36) : List String × List InviteCodeInsert :=
  let codes := (List.range count).map (fun i =>
    "NA" ++ String.mk ((List.range 5).map (fun j => alphaChar (rand (5 * i + j)))))
  (codes, codes.map (fun c => ⟨c, false, max_uses, 0, expires_at, []⟩))

/-- Decidable rendering of the invite-code format regex from the spec:
the literal "NA" followed by exactly five characters, each an uppercase
letter A-Z or a digit 0-9. -/
def isValidInviteCode (s : String) : Bool :=
  match s.data with
  | 'N' :: 'A' :: rest =>
      rest.length == 5 &&
        rest.all (fun c => ('A' ≤ c && c ≤ 'Z') || ('0' ≤ c && c ≤ '9'))
  | _ => false

/-- A row of the waitlist table (the columns the archive endpoint reads or
writes, plus representative data columns to state the frame property). -/
structure WaitlistRow where
  id : String
  full_name : String
  email : String
  is_notified : Bool
  is_archived : Bool
deriving DecidableEq

/-- The filter chain of POST /waitlist/archive (waitlist.py lines 69-77):
when request.user_ids is truthy (a non-empty list) the matched rows are those
with id in user_ids and is_archived = false; otherwise (absent or empty list)
those with is_notified = true and is_archived = false. -/
def archiveFilter (user_ids : Option (List String)) (r : WaitlistRow) : Bool :=
  match user_ids with
  | some ids =>
      if ids.isEmpty then r.is_notified && !r.is_archived
      else ids.contains r.id && !r.is_archived
  | none => r.is_notified && !r.is_archived

/-- archive_waitlist_users (waitlist.py lines 60-92) as a transformation of
the waitlist table: the update sets is_archived = true on exactly the matched
rows, and the endpoint reports len(response.data), the number of matched
rows. -/
def archive_waitlist_users (rows : List WaitlistRow)
    (user_ids : Option (List String)) : List WaitlistRow × Nat :=
  ((rows.map fun r =>
      if archiveFilter user_ids r then { r with is_archived := true } else r),
   (rows.filter (archiveFilter user_ids)).length)

/-- The row condition exactly as claim C9 states it: with an empty or absent
user_ids list, the rows with is_notified = true and is_archived = false; with
a non-empty list, the rows whose id is in the list and whose is_archived =
false, with no is_notified condition. -/
def claimArchiveCond (user_ids : Option (List String)) (r : WaitlistRow) : Bool :=
  match user_ids with
  | none => r.is_notified && !r.is_archived
  | some [] => r.is_notified && !r.is_archived
  | some ids => ids.contains r.id && !r.is_archived

/-- A row of the credit_purchases table, restricted to the columns
get_credit_balances reads for sorting (credit_service.py line 49): user_id,
status, created_at (a non-null column, cf. transform_credit_purchase line
319), completed_at (nullable). -/
structure PurchaseRow where
  user_id : String
  status : String
  created_at : Int
  completed_at : Option Int
deriving DecidableEq

/-- The purchase date get_credit_balances uses (line 54): completed_at,
falling back to created_at. -/
def purchaseDate (p : PurchaseRow) : Int :=
  p.completed_at.getD p.created_at

/-- The rows returned by the purchases query of line 49: status = "completed"
and user_id among the balance rows' user ids. -/
def completedPurchasesFor (user_ids : List String) (ps : List PurchaseRow) :
    List PurchaseRow :=
  ps.filter (fun p => p.status == "completed" && user_ids.contains p.user_id)

/-- One iteration of the dict-building loop of lines 51-63: keep the date if
the user has none recorded yet or the new date is more recent. -/
def latestStep (m : String → Option Int) (p : PurchaseRow) :
    String → Option Int :=
  let d := purchaseDate p
  match m p.user_id with
  | none => fun k => if k = p.user_id then some d else m k
  | some e =>
      if e < d then (fun k => if k = p.user_id then some d else m k) else m

/-- The dict-building loop of lines 51-63: per user id keep the most recent
purchase date seen. -/
def latestFold (ps : List PurchaseRow) (m : String → Option Int) :
    String → Option Int :=
  ps.foldl latestStep m

/-- userIdToLatestPurchase of get_credit_balances (lines 46-63). -/
def userIdToLatestPurchase (user_ids : List String) (ps : List PurchaseRow) :
    String → Option Int :=
  latestFold (completedPurchasesFor user_ids ps) (fun _ => none)

/-- sort_key of get_credit_balances (lines 70-90): a row with a latest
purchase date d maps to (0, -d, -last_updated); a row without maps to
(1, 0, -last_updated). -/
def sort_key (latest : String → Option Int) (r : CreditBalanceRow) :
    Nat × Int × Int :=
  match latest r.user_id with
  | some d => (0, -d, -r.last_updated)
  | none => (1, 0, -r.last_updated)

/-- Lexicographic comparison of the key tuples, as Python compares tuples. -/
def tupLe (a b : Nat × Int × Int) : Prop :=
  a.1 < b.1 ∨ (a.1 = b.1 ∧ (a.2.1 < b.2.1 ∨ (a.2.1 = b.2.1 ∧ a.2.2 ≤ b.2.2)))

instance : DecidableRel tupLe := fun a b => by unfold tupLe; infer_instance

/-- The order sorted(...) uses on balance rows: compare sort keys. -/
def balanceLe (latest : String → Option Int) (x y : CreditBalanceRow) : Prop :=
  tupLe (sort_key latest x) (sort_key latest y)

instance (latest : String → Option Int) : DecidableRel (balanceLe latest) :=
  fun x y => by unfold balanceLe; infer_instance

instance (latest : String → Option Int) :
    IsTotal CreditBalanceRow (balanceLe latest) :=
  ⟨fun a b => by unfold balanceLe tupLe; omega⟩

instance (latest : String → Option Int) :
    IsTrans CreditBalanceRow (balanceLe latest) :=
  ⟨fun a b c hab hbc => by unfold balanceLe tupLe at hab hbc ⊢; omega⟩

/-- sorted(response.data, key=sort_key) (line 92): a stable sort by the key
tuples, modelled as insertion sort (Python's sort is stable). -/
def sortBalances (rows : List CreditBalanceRow) (latest : String → Option Int) :
    List CreditBalanceRow :=
  List.insertionSort (balanceLe latest) rows

/-- The pairwise ordering claim C3 states for a row x preceding a row y in
the output: a row with a completed purchase never follows one without; two
rows with purchases are ordered by latest purchase date descending; two rows
without are ordered by the balance's own last_updated descending. -/
def claimOrder (latest : String → Option Int) (x y : CreditBalanceRow) : Prop :=
  match latest x.user_id, latest y.user_id with
  | some dx, some dy => dy ≤ dx
  | some _, none => True
  | none, some _ => False
  | none, none => y.last_updated ≤ x.last_updated

/-- Helper for reasoning about the dict fold: the keep-the-max step on a
single date. -/
def maxStep (o : Option Int) (d : Int) : Option Int :=
  match o with
  | none => some d
  | some e => if e < d then some d else some e

/-- Fold of the keep-the-max step over a list of dates, starting from an
optional current best: computes the maximum date. -/
def mergeMax (o : Option Int) (l : List Int) : Option Int :=
  l.foldl maxStep o

/-- An identity record of the external auth directory as the defensive code
reads it: id and email may be missing or empty (Python truthiness), the
user_metadata dict may be absent or empty (falsy), otherwise it carries the
name keys the services inspect. -/
structure UserMetadata where
  full_name : Option String
  name : Option String
  preferred_name : Option String
  display_name : Option String
  first_name : Option String
  last_name : Option String
deriving DecidableEq

structure AuthUser where
  id : Option String
  email : Option String
  user_metadata : Option UserMetadata
deriving DecidableEq

/-- One page of the remote list-users capability over a fixed directory:
page numbers start at 1, page size 1000 (get_user_profiles line 53). -/
def pageSlice (dir : List AuthUser) (page : Nat) : List AuthUser :=
  (dir.drop ((page - 1) * 1000)).take 1000

/-- The pagination loop of user_service.get_user_profiles (lines 51-82).
fail pictures which page fetches raise; fallback is the result of the
unpaginated list_users() call used when page 1 fails.  A failing page 1 falls
back to the unpaginated call (whose own failure propagates); a failing page
at 2 or beyond breaks out, keeping the accumulated users.  A successful fetch
is processed as in the source: stop on an empty page, stop after a short
(< 1000) page, otherwise accumulate and continue with the next page.  The
fuel argument only bounds the recursion and is chosen large enough to never
run out. -/
def listUsersLoop (dir : List AuthUser) (fail : Nat → Bool)
    (fallback : Except Unit (List AuthUser)) :
    Nat → Nat → List AuthUser → Except Unit (List AuthUser)
  | 0, _, acc => .ok acc
  | Nat.succ fuel, page, acc =>
      let fetched : Except Unit (List AuthUser) :=
        if fail page then
          if page = 1 then fallback else .error ()
        else .ok (pageSlice dir page)
      match fetched with
      | .error _ => if page = 1 then .error () else .ok acc
      | .ok users_list =>
          if users_list.isEmpty then .ok acc
          else if users_list.length < 1000 then .ok (acc ++ users_list)
          else listUsersLoop dir fail fallback fuel (page + 1) (acc ++ users_list)

/-- The full enumeration get_user_profiles performs: start at page 1 with an
empty accumulator.  dir.length + 2 units of fuel always suffice because each
continuing iteration consumes a full page of 1000 directory entries. -/
def get_user_profiles_auth_users (dir : List AuthUser) (fail : Nat → Bool)
    (fallback : Except Unit (List AuthUser)) : Except Unit (List AuthUser) :=
  listUsersLoop dir fail fallback (dir.length + 2) 1 []

/-- The whitespace set of Python str.strip and of the regex class \s over
ASCII text. -/
def isPySpace (c : Char) : Bool :=
  c = ' ' || c = '\t' || c = '\n' || c = '\r' || c = '\x0b' || c = '\x0c'

/-- Python str.strip(): drop whitespace from both ends. -/
def pyStrip (cs : List Char) : List Char :=
  ((cs.dropWhile isPySpace).reverse.dropWhile isPySpace).reverse

/-- The title-stripping substitution of parse_email_text (email_parser.py
line 37): re.sub of an anchored pattern removing a leading "Title: ..." line.
The anchored match exists exactly when the first colon of the text is at
index 1 or later and a newline occurs after it (the character class excludes
only the colon and so spans lines, the lazy dot cannot cross a newline); the
removed prefix then runs through the first newline after that colon, plus a
directly following second newline. -/
def stripTitleLine (cs : List Char) : List Char :=
  match List.findIdx? (fun c => c = ':') cs with
  | none => cs
  | some i =>
      if i = 0 then cs
      else
        match List.findIdx? (fun c => c = '\n') (cs.drop (i + 1)) with
        | none => cs
        | some k =>
            match cs.drop (i + 1 + k + 1) with
            | '\n' :: rest2 => rest2
            | rest => rest

/-- One step of splitting text on runs of newlines: the state is (finished
paragraphs, current paragraph, pending newline count); a pending run of at
least thr newlines ends the current paragraph, a shorter run stays inside
it. -/
def splitRunsStep (thr : Nat) (st : List (List Char) × List Char × Nat)
    (c : Char) : List (List Char) × List Char × Nat :=
  let (paras, cur, nl) := st
  if c = '\n' then (paras, cur, nl + 1)
  else if thr ≤ nl then (paras ++ [cur], [c], 0)
  else (paras, cur ++ List.replicate nl '\n' ++ [c], 0)

/-- re.split on runs of at least thr newlines: thr = 2 is the double-newline
split of line 40, thr = 1 the single-newline fallback of line 44. -/
def splitOnNewlineRuns (thr : Nat) (cs : List Char) : List (List Char) :=
  let st := cs.foldl (splitRunsStep thr) ([], [], 0)
  if thr ≤ st.2.2 then st.1 ++ [st.2.1, []]
  else st.1 ++ [st.2.1 ++ List.replicate st.2.2 '\n']

/-- Case-insensitive prefix test: re.match of a literal with re.IGNORECASE. -/
def ciIsPrefix (pat : List Char) (s : List Char) : Bool :=
  ((s.take pat.length).map Char.toLower) == pat

/-- Greeting pattern 1 of line 49: one of greetings, dear, hello, hi,
case-insensitive, followed by a whitespace character or a comma. -/
def greetingPattern1 (s : List Char) : Bool :=
  ["greetings", "dear", "hello", "hi"].any (fun kw =>
    ciIsPrefix kw.data s &&
      (match s.drop kw.length with
       | c :: _ => isPySpace c || c = ','
       | [] => false))

/-- Greeting pattern 2 of line 50: a bare case-insensitive prefix among
greetings from, dear, hello, hi. -/
def greetingPattern2 (s : List Char) : Bool :=
  ["greetings from", "dear", "hello", "hi"].any (fun kw => ciIsPrefix kw.data s)

/-- The any-of-patterns test of line 55. -/
def matchesGreeting (s : List Char) : Bool :=
  greetingPattern1 s || greetingPattern2 s

/-- The signoff pattern of line 73: a case-insensitive prefix among thanks,
thank you, best regards, sincerely, regards, yours truly. -/
def matchesSignoff (s : List Char) : Bool :=
  ["thanks", "thank you", "best regards", "sincerely", "regards",
   "yours truly"].any (fun kw => ciIsPrefix kw.data s)

/-- Case-insensitive substring search: re.search of a literal. -/
def ciContains (pat : List Char) (s : List Char) : Bool :=
  (List.range (s.length + 1)).any (fun i => ciIsPrefix pat (s.drop i))

/-- The team test of line 86: re.search of the alternation helium team, team,
helium, case-insensitive. -/
def containsTeamWord (s : List Char) : Bool :=
  ciContains ("helium team".data) s || ciContains ("team".data) s ||
    ciContains ("helium".data) s

/-- The mid-sentence punctuation search of line 66: some of . ! ? directly
followed by a whitespace character. -/
def hasSentencePunct (s : List Char) : Bool :=
  (List.range s.length).any (fun i =>
    match s.drop i with
    | c :: d :: _ => (c = '.' || c = '!' || c = '?') && isPySpace d
    | _ => false)

/-- Inner scan for the search of line 93: the nearest position q at start or
beyond where the helium team starts case-insensitively, with no newline in
between (the lazy dot of the pattern cannot cross a newline). -/
def findTeamFrom (s : List Char) (start : Nat) : Option Nat :=
  ((List.range (s.length + 1)).filter (fun q =>
      decide (start ≤ q) && ciIsPrefix ("the helium team".data) (s.drop q) &&
        ((s.drop start).take (q - start)).all (fun c => c ≠ '\n'))).head?

/-- The combined-signoff search of line 93: re.search of thanks, a lazy gap,
then the helium team, case-insensitive; on success the two groups (thanks
plus the gap, and the matched team text in its original case). -/
def searchThanksTeam (s : List Char) : Option (List Char × List Char) :=
  match ((List.range (s.length + 1)).filter (fun p =>
      ciIsPrefix ("thanks".data) (s.drop p) &&
        (findTeamFrom s (p + 6)).isSome)).head? with
  | none => none
  | some p =>
      match findTeamFrom s (p + 6) with
      | none => none
      | some q => some ((s.drop p).take (q - p), (s.drop q).take 15)

/-- The capitalised-word-comma pattern of line 105: an uppercase letter, one
or more lowercase letters, a comma, then only whitespace to the end. -/
def capitalizedCommaLine (s : List Char) : Bool :=
  match s with
  | c :: rest =>
      ('A' ≤ c && c ≤ 'Z') &&
        (let lowers := rest.takeWhile (fun d => 'a' ≤ d && d ≤ 'z')
         (1 ≤ lowers.length) &&
           (match rest.drop lowers.length with
            | ',' :: tailw => tailw.all isPySpace
            | _ => false))
  | [] => false

/-- The result record of parse_email_text. -/
structure ParsedEmailContent where
  greeting : String
  paragraphs : List String
  signoff : String
deriving DecidableEq

/-- email_parser.parse_email_text (lines 15-114), embedded over character
lists with the regex operations spelled out above.  The flow mirrors the
source: defaults on blank input; strip a title line; split into stripped
non-empty paragraphs on blank lines, falling back to single newlines; pull
out a greeting paragraph (pattern match first, else a short first paragraph
without sentence punctuation); pull out a signoff paragraph, combining it
with a following team paragraph or an embedded team phrase on the same
line. -/
def parse_email_text (text_content : String) : ParsedEmailContent :=
  if text_content.data.isEmpty || (pyStrip text_content.data).isEmpty then
    ⟨"Greetings from Helium,", [], "Thanks,<br>The Helium Team"⟩
  else
    let cleaned_content := pyStrip (stripTitleLine text_content.data)
    let paragraphs0 := ((splitOnNewlineRuns 2 cleaned_content).map pyStrip).filter
      (fun p => !p.isEmpty)
    let paragraphs1 := if paragraphs0.isEmpty then
        ((splitOnNewlineRuns 1 cleaned_content).map pyStrip).filter
          (fun p => !p.isEmpty)
      else paragraphs0
    let greetingState : List Char × List (List Char) :=
      match List.findIdx? matchesGreeting paragraphs1 with
      | some i =>
          let g := paragraphs1.getD i []
          let g2 := if ciIsPrefix ("greetings from ".data) g
                    then "Greetings from ".data ++ g.drop 15 else g
          (g2, paragraphs1.eraseIdx i)
      | none =>
          match paragraphs1 with
          | [] => ("Greetings from Helium,".data, paragraphs1)
          | first :: restp =>
              if decide (first.length < 100) && !hasSentencePunct first
              then (first, restp)
              else ("Greetings from Helium,".data, paragraphs1)
    let greeting := greetingState.1
    let paras2 := greetingState.2
    let signoffState : List Char × List (List Char) :=
      match List.findIdx? matchesSignoff paras2 with
      | some i =>
          let line := paras2.getD i []
          if decide (i + 1 < paras2.length) &&
             containsTeamWord (paras2.getD (i + 1) [])
          then (line ++ "<br>".data ++ paras2.getD (i + 1) [],
                (paras2.eraseIdx i).eraseIdx i)
          else
            match searchThanksTeam line with
            | some (g1, g2) => (g1 ++ "<br>".data ++ g2, paras2.eraseIdx i)
            | none => (line, paras2.eraseIdx i)
      | none =>
          match paras2.getLast? with
          | some last =>
              if decide (last.length < 100) &&
                 (matchesSignoff last || capitalizedCommaLine last)
              then (last, paras2.dropLast)
              else ("Thanks,<br>The Helium Team".data, paras2)
          | none => ("Thanks,<br>The Helium Team".data, paras2)
    ⟨String.mk greeting, signoffState.2.map String.mk, String.mk signoffState.1⟩

/-- Python str.strip over String values. -/
def pyStripS (s : String) : String :=
  String.mk (pyStrip s.data)

/-- A user_profiles row as the name-resolution steps read it (the queries of
credit_service.py lines 129 and 394 select user_id, full_name,
preferred_name). -/
structure ProfileNameRow where
  user_id : String
  full_name : Option String
  preferred_name : Option String
deriving DecidableEq

/-- A Python dict over string keys as an insertion-ordered association list:
writing an existing key keeps its position, a new key appends. -/
def dinsert (m : List (String × String)) (k v : String) :
    List (String × String) :=
  if m.any (fun p => p.1 == k) then
    m.map (fun p => if p.1 == k then (k, v) else p)
  else m ++ [(k, v)]

/-- Python dict lookup. -/
def dlookup (m : List (String × String)) (k : String) : Option String :=
  (m.find? (fun p => p.1 == k)).map (fun p => p.2)

/-- The directory-metadata name chain of get_credit_balances (credit_service
lines 114-121): full_name or name or display_name or the stripped
concatenation of first_name and last_name (when either is truthy) or
first_name or last_name.  This function tries no preferred_name key. -/
def authNameBalances (m : UserMetadata) : Option String :=
  truthy m.full_name <|> truthy m.name <|> truthy m.display_name <|>
    (if (truthy m.first_name).isSome || (truthy m.last_name).isSome then
       truthy (some (pyStripS ((m.first_name.getD "") ++ " " ++ (m.last_name.getD ""))))
     else none) <|>
    truthy m.first_name <|> truthy m.last_name

/-- The directory-metadata name chain of get_credit_purchases (credit_service
lines 381-386): full_name or name or preferred_name or display_name.  This
function tries no first_name or last_name key. -/
def authNamePurchases (m : UserMetadata) : Option String :=
  truthy m.full_name <|> truthy m.name <|> truthy m.preferred_name <|>
    truthy m.display_name

/-- One iteration of step 1 of get_credit_balances (lines 102-123): keep the
user's email and directory name when the truthy id is among the balance
rows' user ids. -/
def step1BalancesStep (user_ids : List String)
    (maps : List (String × String) × List (String × String)) (u : AuthUser) :
    List (String × String) × List (String × String) :=
  match truthy u.id with
  | none => maps
  | some uid =>
      if user_ids.contains uid then
        let emailMap := match truthy u.email with
          | some e => dinsert maps.1 uid e
          | none => maps.1
        let nameMap := match u.user_metadata with
          | some md =>
              match authNameBalances md with
              | some n => dinsert maps.2 uid n
              | none => maps.2
          | none => maps.2
        (emailMap, nameMap)
      else maps

/-- Step 1 of get_credit_balances (lines 97-125): a pass over the directory
users accumulating the email dict and the directory-name dict. -/
def step1Balances (user_ids : List String) (users : List AuthUser)
    (maps : List (String × String) × List (String × String)) :
    List (String × String) × List (String × String) :=
  users.foldl (step1BalancesStep user_ids) maps

/-- The corresponding pass of get_credit_purchases (lines 369-388), which
uses the shorter metadata chain. -/
def step1Purchases (user_ids : List String) (users : List AuthUser)
    (maps : List (String × String) × List (String × String)) :
    List (String × String) × List (String × String) :=
  users.foldl (fun maps u =>
    match truthy u.id with
    | none => maps
    | some uid =>
        if user_ids.contains uid then
          let emailMap := match truthy u.email with
            | some e => dinsert maps.1 uid e
            | none => maps.1
          let nameMap := match u.user_metadata with
            | some md =>
                match authNamePurchases md with
                | some n => dinsert maps.2 uid n
                | none => maps.2
            | none => maps.2
          (emailMap, nameMap)
        else maps) maps

/-- Step 2 of both functions (lines 128-137 and 393-402): profile names,
preferred_name else full_name, override the directory names; the query is
filtered to the relevant user ids. -/
def step2Profiles (user_ids : List String) (profiles : List ProfileNameRow)
    (nameMap : List (String × String)) : List (String × String) :=
  (profiles.filter (fun p => user_ids.contains p.user_id)).foldl (fun nm p =>
    match truthy p.preferred_name <|> truthy p.full_name with
    | some n => dinsert nm p.user_id n
    | none => nm) nameMap

/-- Step 3 of get_credit_balances only (lines 140-154): when some id still
lacks a name and emails were found, look the collected emails up in the
waitlist and fill names only for ids that have none. -/
def step3Waitlist (user_ids : List String) (waitlist : List WaitlistRow)
    (emailMap nameMap : List (String × String)) : List (String × String) :=
  if decide (nameMap.length < user_ids.length) && !emailMap.isEmpty then
    let emails := emailMap.map (fun p => p.2)
    let email_to_name := (waitlist.filter (fun w => emails.contains w.email)).foldl
      (fun acc w =>
        match truthy (some w.full_name) with
        | some n => dinsert acc w.email n
        | none => acc) []
    emailMap.foldl (fun nm p =>
      match dlookup email_to_name p.2 with
      | some n => if (dlookup nm p.1).isNone then dinsert nm p.1 n else nm
      | none => nm) nameMap
  else nameMap

/-- The email local-part fallback of lines 163-168: the part before the
first at sign, if longer than 2 characters and starting with a letter, with
the first letter upper-cased and the separators dot, underscore and hyphen
in the remainder replaced by spaces. -/
def emailLocalPartName (email : List Char) : Option (List Char) :=
  let email_name := email.takeWhile (fun c => c ≠ '@')
  if decide (2 < email_name.length) &&
     (match email_name with
      | c :: _ => c.isAlpha
      | [] => false) then
    some (match email_name with
      | c :: rest => c.toUpper :: rest.map (fun d =>
          if d = '.' || d = '_' || d = '-' then ' ' else d)
      | [] => [])
  else none

/-- The per-row resolution of lines 156-179: the email is the dict entry or
null (no synthesis); the name is the dict entry, else derived from the email
local part, else the placeholder built from the first 8 characters of the
id. -/
def resolveBalanceRowName (emailMap nameMap : List (String × String))
    (uid : String) : Option String × String :=
  let email := truthy (dlookup emailMap uid)
  let name0 := truthy (dlookup nameMap uid)
  let name1 := match name0 with
    | some n => some n
    | none =>
        match email with
        | some e => (emailLocalPartName e.data).map String.mk
        | none => none
  match name1 with
  | some n => (email, n)
  | none => (email, "User " ++ uid.take 8)

/-- The name and email resolution of get_credit_balances as a whole: steps
1-3 over the directory users, profile rows and waitlist rows, then the final
per-row loop; returns (user_id, user_email, user_name) per balance row.  The
source iterates the sorted rows, but the per-row resolution depends only on
the row's user_id, so the iteration order is immaterial here. -/
def get_credit_balances_names (rows : List CreditBalanceRow)
    (users : List AuthUser) (profiles : List ProfileNameRow)
    (waitlist : List WaitlistRow) : List (String × Option String × String) :=
  let user_ids := rows.map (fun r => r.user_id)
  let maps1 := step1Balances user_ids users ([], [])
  let nameMap2 := step2Profiles user_ids profiles maps1.2
  let nameMap3 := step3Waitlist user_ids waitlist maps1.1 nameMap2
  rows.map (fun r =>
    let res := resolveBalanceRowName maps1.1 nameMap3 r.user_id
    (r.user_id, res.1, res.2))

/-- The name and email resolution of get_credit_purchases (lines 341-413):
no waitlist step, no local-part fallback, no placeholder; user_email and
user_name stay null when the dicts have no entry. -/
def get_credit_purchases_names (rows : List PurchaseRow)
    (users : List AuthUser) (profiles : List ProfileNameRow) :
    List (String × Option String × Option String) :=
  let user_ids := rows.map (fun r => r.user_id)
  let maps1 := step1Purchases user_ids users ([], [])
  let nameMap2 := step2Profiles user_ids profiles maps1.2
  rows.map (fun r =>
    (r.user_id, dlookup maps1.1 r.user_id, dlookup nameMap2 r.user_id))

/-- The directory-metadata chain exactly as claim C1 states it: full_name,
name, preferred_name, display_name, the trimmed concatenation of first_name
and last_name, first_name, last_name; first non-empty wins. -/
def claimC1DirectoryChain (m : UserMetadata) : Option String :=
  truthy m.full_name <|> truthy m.name <|> truthy m.preferred_name <|>
    truthy m.display_name <|>
    truthy (some (pyStripS ((m.first_name.getD "") ++ " " ++ (m.last_name.getD "")))) <|>
    truthy m.first_name <|> truthy m.last_name

/-- The priority order exactly as claim C1 states it: the identity directory
chain first, the profile store (preferred_name else full_name) only when
every directory key is empty. -/
def claimC1Name (md : Option UserMetadata) (prof : Option ProfileNameRow) :
    Option String :=
  (md.bind claimC1DirectoryChain) <|>
    (prof.bind (fun p => truthy p.preferred_name <|> truthy p.full_name))

/-- A full user_profiles row as transform_user_profile reads it
(user_service.py lines 14-33). -/
structure ProfileTableRow where
  id : String
  user_id : String
  full_name : String
  preferred_name : String
  work_description : String
  personal_references : Option String
  created_at : Int
  updated_at : Int
  avatar_url : Option String
  referral_source : Option String
  consent_given : Option Bool
  consent_date : Option Int
  metadata : Option (List (String × String))
  plan_type : Option String
  account_type : Option String
deriving DecidableEq

/-- UserProfileResponse (schemas.py lines 55-73): note that email is a plain
non-nullable string there. -/
structure UserProfileResponse where
  id : String
  user_id : String
  full_name : String
  preferred_name : String
  work_description : String
  personal_references : Option String
  created_at : Int
  updated_at : Int
  avatar_url : Option String
  referral_source : Option String
  consent_given : Option Bool
  consent_date : Option Int
  email : String
  metadata : Option (List (String × String))
  plan_type : String
  account_type : String
deriving DecidableEq

/-- user_service.transform_user_profile (lines 14-33): the email argument
falls back to the literal "Email not available"; plan_type and account_type
fall back to "seed" and "individual". -/
def transform_user_profile (row : ProfileTableRow) (email : Option String) :
    UserProfileResponse :=
  { id := row.id
    user_id := row.user_id
    full_name := row.full_name
    preferred_name := row.preferred_name
    work_description := row.work_description
    personal_references := row.personal_references
    created_at := row.created_at
    updated_at := row.updated_at
    avatar_url := row.avatar_url
    referral_source := row.referral_source
    consent_given := row.consent_given
    consent_date := row.consent_date
    email := (truthy email).getD "Email not available"
    metadata := row.metadata
    plan_type := (truthy row.plan_type).getD "seed"
    account_type := (truthy row.account_type).getD "individual" }

theorem find?_append_of_none {p : CreditBalanceRow → Bool}
    {l₁ : List CreditBalanceRow} (l₂ : List CreditBalanceRow)
    (h : l₁.find? p = none) : (l₁ ++ l₂).find? p = l₂.find? p := by
  induction l₁ with
  | nil => rfl
  | cons a l ih =>
      cases hpa : p a with
      | true => simp [List.find?_cons_of_pos _ hpa] at h
      | false =>
          have hpa' : ¬ p a = true := by simp [hpa]
          rw [List.cons_append, List.find?_cons_of_neg _ hpa']
          rw [List.find?_cons_of_neg _ hpa'] at h
          exact ih h

/-- Claim C2: assign_credits with amount > 0 inserts a fresh row with
balance_dollars = total_purchased = amount and total_used = 0 when no row
exists; when a row exists it increments balance_dollars and total_purchased by
the amount and overwrites metadata.last_assignment with the audit entry
(amount, timestamp, notes); hence assigning 10 then 5 to a fresh identity
yields balance_dollars = total_purchased = 15, total_used = 0 and
metadata.last_assignment.amount = 5. -/
theorem assign_credits_spec_c2 (table : List CreditBalanceRow) (uid : String)
    (amt : Rat) (notes : Option String) (now : Int) :
    (table.find? (fun r => r.user_id == uid) = none →
      assign_credits table uid amt notes now =
        (table ++ [⟨uid, amt, amt, 0, now, ⟨some ⟨amt, now, notes⟩, none⟩⟩],
         ⟨uid, amt, amt, 0, now, ⟨some ⟨amt, now, notes⟩, none⟩⟩)) ∧
    (∀ ex, table.find? (fun r => r.user_id == uid) = some ex →
      (assign_credits table uid amt notes now).2 =
        { ex with balance_dollars := ex.balance_dollars + amt
                  total_purchased := ex.total_purchased + amt
                  last_updated := now
                  metadata := { ex.metadata with
                    last_assignment := some ⟨amt, now, notes⟩ } }) ∧
    (∀ n₁ n₂ t₁ t₂, table.find? (fun r => r.user_id == uid) = none →
      ((assign_credits (assign_credits table uid 10 n₁ t₁).1 uid 5 n₂ t₂).2.balance_dollars
          = 15 ∧
       (assign_credits (assign_credits table uid 10 n₁ t₁).1 uid 5 n₂ t₂).2.total_purchased
          = 15 ∧
       (assign_credits (assign_credits table uid 10 n₁ t₁).1 uid 5 n₂ t₂).2.total_used
          = 0 ∧
       ((assign_credits (assign_credits table uid 10 n₁ t₁).1 uid 5 n₂ t₂).2.metadata.last_assignment.map
          Assignment.amount) = some 5)) := by
  refine ⟨?_, ?_, ?_⟩
  · intro h
    simp only [assign_credits, h]
  · intro ex h
    simp only [assign_credits, h]
  · intro n₁ n₂ t₁ t₂ h
    have h₁ : assign_credits table uid 10 n₁ t₁ =
        (table ++ [⟨uid, 10, 10, 0, t₁, ⟨some ⟨10, t₁, n₁⟩, none⟩⟩],
         ⟨uid, 10, 10, 0, t₁, ⟨some ⟨10, t₁, n₁⟩, none⟩⟩) := by
      simp only [assign_credits, h]
    rw [h₁]
    have h₂ : ((table ++ [(⟨uid, 10, 10, 0, t₁, ⟨some ⟨10, t₁, n₁⟩, none⟩⟩ :
        CreditBalanceRow)]).find? (fun r => r.user_id == uid)) =
        some ⟨uid, 10, 10, 0, t₁, ⟨some ⟨10, t₁, n₁⟩, none⟩⟩ := by
      rw [find?_append_of_none _ h]
      simp [List.find?_cons]
    simp only [assign_credits, h₂]
    refine ⟨by norm_num, by norm_num, by simp, by simp⟩

/-- Witness for the C2 theorem at a concrete input: empty table, user "u". -/
theorem assign_credits_spec_c2_witness :
    ((assign_credits (assign_credits [] "u" 10 none 0).1 "u" 5 none 1).2.balance_dollars = 15 ∧
     (assign_credits (assign_credits [] "u" 10 none 0).1 "u" 5 none 1).2.total_purchased = 15 ∧
     (assign_credits (assign_credits [] "u" 10 none 0).1 "u" 5 none 1).2.total_used = 0 ∧
     ((assign_credits (assign_credits [] "u" 10 none 0).1 "u" 5 none 1).2.metadata.last_assignment.map
        Assignment.amount) = some 5) :=
  (assign_credits_spec_c2 [] "u" 7 none 3).2.2 none none 0 1 rfl

/-- Claim C10: when assign_credits creates a brand-new balance row the audit
entry is stored under metadata.initial_assignment and last_assignment is
absent; only the update path (row already exists) writes
metadata.last_assignment, and it leaves initial_assignment untouched. -/
theorem assign_credits_metadata_c10 (table : List CreditBalanceRow) (uid : String)
    (amt : Rat) (notes : Option String) (now : Int) :
    (table.find? (fun r => r.user_id == uid) = none →
      (assign_credits table uid amt notes now).2.metadata =
        ⟨some ⟨amt, now, notes⟩, none⟩) ∧
    (∀ ex, table.find? (fun r => r.user_id == uid) = some ex →
      (assign_credits table uid amt notes now).2.metadata.last_assignment =
          some ⟨amt, now, notes⟩ ∧
      (assign_credits table uid amt notes now).2.metadata.initial_assignment =
          ex.metadata.initial_assignment) := by
  constructor
  · intro h
    simp only [assign_credits, h]
  · intro ex h
    simp only [assign_credits, h]
    exact ⟨by simp, by simp⟩

/-- Witness for the C10 theorem: a fresh insert stores the entry under
initial_assignment with no last_assignment. -/
theorem assign_credits_metadata_c10_witness :
    (assign_credits [] "u" 5 (some "note") 2).2.metadata =
      ⟨some ⟨5, 2, some "note"⟩, none⟩ :=
  (assign_credits_metadata_c10 [] "u" 5 (some "note") 2).1 rfl

/-- Counterexample to claim C4 as stated: an empty identity id is not rejected.
The request (user_id = "", credits_to_add = 5) passes the Pydantic validation
and the endpoint inserts a balance row keyed by the empty string, so a store
mutation does occur. -/
theorem assignCreditsEndpoint_c4_counterexample :
    validAssignCreditsRequest "" 5 = true ∧
    (assignCreditsEndpoint [] "" 5 none 0).1 =
      [⟨"", 5, 5, 0, 0, ⟨some ⟨5, 0, none⟩, none⟩⟩] := by
  constructor
  · rfl
  · rfl

/-- Claim C4 (amended): a non-positive amount (0 or negative) is rejected by
request validation before any store mutation occurs (the table is returned
unchanged and no row is produced); an empty identity id, however, is not
rejected: with a positive amount the assignment proceeds. -/
theorem assignCreditsEndpoint_c4_amended (table : List CreditBalanceRow)
    (uid : String) (amt : Rat) (notes : Option String) (now : Int) :
    (amt ≤ 0 → assignCreditsEndpoint table uid amt notes now = (table, none)) ∧
    (0 < amt → ((assignCreditsEndpoint table "" amt notes now).2).isSome = true) := by
  constructor
  · intro h
    have hv : validAssignCreditsRequest uid amt = false := by
      simp [validAssignCreditsRequest, not_lt.mpr h]
    simp [assignCreditsEndpoint, hv]
  · intro h
    have hv : validAssignCreditsRequest "" amt = true := by
      simp [validAssignCreditsRequest, h]
    simp [assignCreditsEndpoint, hv]

/-- Witness for the amended C4 theorem: amount 0 is rejected with the store
untouched, and a positive amount with an empty id goes through. -/
theorem assignCreditsEndpoint_c4_amended_witness :
    assignCreditsEndpoint [] "u" 0 none 0 = ([], none) ∧
    ((assignCreditsEndpoint [] "" 5 none 0).2).isSome = true :=
  ⟨(assignCreditsEndpoint_c4_amended [] "u" 0 none 0).1 le_rfl,
   (assignCreditsEndpoint_c4_amended [] "u" 5 none 0).2 (by norm_num)⟩

theorem alphaChar_valid : ∀ i : Fin 36,
    (('A' ≤ alphaChar i && alphaChar i ≤ 'Z') ||
     ('0' ≤ alphaChar i && alphaChar i ≤ '9')) = true := by
  decide

/-- Claim C8: for every count N, generate_invite_codes returns exactly N codes
and every returned code matches the format "NA" followed by exactly five
characters drawn from A-Z and 0-9 (uniqueness among the codes is not
claimed). -/
theorem generate_invite_codes_format_c8 (count max_uses : Nat) (expires_at : Int)
    (rand : Nat → Fin 36) :
    (generate_invite_codes count max_uses expires_at rand).1.length = count ∧
    (generate_invite_codes count max_uses expires_at rand).1.all isValidInviteCode
      = true := by
  constructor
  · simp [generate_invite_codes]
  · rw [List.all_eq_true]
    intro c hc
    simp only [generate_invite_codes, List.mem_map, List.mem_range] at hc
    obtain ⟨i, _, hci⟩ := hc
    subst hci
    have hdata : ("NA" ++ String.mk ((List.range 5).map
        (fun j => alphaChar (rand (5 * i + j))))).data =
        'N' :: 'A' :: (List.range 5).map (fun j => alphaChar (rand (5 * i + j))) := rfl
    simp only [isValidInviteCode, hdata]
    rw [Bool.and_eq_true]
    constructor
    · simp
    · rw [List.all_eq_true]
      intro c hc
      simp only [List.mem_map, List.mem_range] at hc
      obtain ⟨j, _, hcj⟩ := hc
      subst hcj
      exact alphaChar_valid _

/-- Claim C9: the waitlist archive endpoint sets is_archived = true on exactly
the rows matched by the claim's condition (is_notified and not is_archived
when user_ids is empty or absent; id in user_ids and not is_archived, with no
is_notified condition, when user_ids is non-empty), leaves every other row and
every other field unchanged, and reports the number of matched rows. -/
theorem archive_waitlist_users_c9 (rows : List WaitlistRow)
    (user_ids : Option (List String)) :
    archive_waitlist_users rows user_ids =
      ((rows.map fun r =>
          if claimArchiveCond user_ids r then { r with is_archived := true } else r),
       (rows.filter (claimArchiveCond user_ids)).length) := by
  have hcond : archiveFilter user_ids = claimArchiveCond user_ids := by
    funext r
    match user_ids with
    | none => rfl
    | some [] => rfl
    | some (x :: xs) => rfl
  simp [archive_waitlist_users, hcond]

theorem latestStep_apply (m : String → Option Int) (p : PurchaseRow) (uid : String) :
    latestStep m p uid =
      if p.user_id = uid then maxStep (m uid) (purchaseDate p) else m uid := by
  unfold latestStep maxStep
  by_cases hp : p.user_id = uid
  · subst hp
    cases hmu : m p.user_id with
    | none => simp [hmu]
    | some e => by_cases he : e < purchaseDate p <;> simp [hmu, he]
  · have hp' : ¬ uid = p.user_id := fun h => hp h.symm
    cases hmu : m p.user_id with
    | none => simp [hmu, hp, hp']
    | some e =>
        by_cases he : e < purchaseDate p <;> simp [hmu, he, hp, hp']

theorem latestFold_apply (ps : List PurchaseRow) :
    ∀ (m : String → Option Int) (uid : String),
      latestFold ps m uid =
        mergeMax (m uid) ((ps.filter (fun q => q.user_id == uid)).map purchaseDate) := by
  induction ps with
  | nil => intro m uid; rfl
  | cons p ps ih =>
      intro m uid
      have h1 : latestFold (p :: ps) m = latestFold ps (latestStep m p) := rfl
      rw [h1, ih, latestStep_apply]
      by_cases hp : p.user_id = uid
      · have hfil : (p :: ps).filter (fun q => q.user_id == uid) =
            p :: ps.filter (fun q => q.user_id == uid) := by
          simp [List.filter_cons, hp]
        rw [hfil, List.map_cons, if_pos hp]
        rfl
      · have hfil : (p :: ps).filter (fun q => q.user_id == uid) =
            ps.filter (fun q => q.user_id == uid) := by
          simp [List.filter_cons, hp]
        rw [hfil, if_neg hp]

theorem maxStep_isSome (o : Option Int) (d : Int) : (maxStep o d).isSome = true := by
  cases o with
  | none => rfl
  | some e => by_cases he : e < d <;> simp [maxStep, he]

theorem mergeMax_eq_none (l : List Int) :
    ∀ o, mergeMax o l = none ↔ (o = none ∧ l = []) := by
  induction l with
  | nil => intro o; simp [mergeMax]
  | cons d l ih =>
      intro o
      have h1 : mergeMax o (d :: l) = mergeMax (maxStep o d) l := rfl
      rw [h1]
      constructor
      · intro h
        rcases (ih (maxStep o d)).mp h with ⟨hs, _⟩
        have := maxStep_isSome o d
        rw [hs] at this
        cases this
      · rintro ⟨_, h2⟩
        cases h2

theorem maxStep_le (o : Option Int) (a : Int) :
    ∃ m, maxStep o a = some m ∧ a ≤ m ∧ (∀ e, o = some e → e ≤ m) := by
  cases o with
  | none => exact ⟨a, rfl, le_refl a, fun e he => by cases he⟩
  | some e =>
      by_cases hlt : e < a
      · exact ⟨a, by simp [maxStep, hlt], le_refl a,
          fun x hx => by cases hx; exact le_of_lt hlt⟩
      · exact ⟨e, by simp [maxStep, hlt], le_of_not_lt hlt,
          fun x hx => by cases hx; exact le_refl _⟩

theorem mergeMax_spec (l : List Int) :
    ∀ o d, mergeMax o l = some d →
      (o = some d ∨ d ∈ l) ∧ (∀ x ∈ l, x ≤ d) ∧ (∀ e, o = some e → e ≤ d) := by
  induction l with
  | nil =>
      intro o d h
      have ho : o = some d := h
      refine ⟨Or.inl ho, by simp, ?_⟩
      intro e he
      rw [ho] at he
      cases he
      exact le_refl _
  | cons a l ih =>
      intro o d h
      have h1 : mergeMax o (a :: l) = mergeMax (maxStep o a) l := rfl
      rw [h1] at h
      obtain ⟨hmem, hub, hinit⟩ := ih (maxStep o a) d h
      obtain ⟨m, hm, ham, hom⟩ := maxStep_le o a
      have hmd : m ≤ d := hinit m hm
      refine ⟨?_, ?_, fun e he => le_trans (hom e he) hmd⟩
      · cases hmem with
        | inr hl => exact Or.inr (List.mem_cons_of_mem a hl)
        | inl hms =>
            have hmd2 : m = d := by rw [hm] at hms; exact Option.some.inj hms
            cases o with
            | none =>
                have ha2 : m = a := by simpa [maxStep] using hm.symm
                exact Or.inr (by rw [← hmd2, ha2]; exact List.mem_cons_self a l)
            | some e =>
                by_cases hlt : e < a
                · have ha2 : m = a := by simpa [maxStep, hlt] using hm.symm
                  exact Or.inr (by rw [← hmd2, ha2]; exact List.mem_cons_self a l)
                · have he2 : m = e := by simpa [maxStep, hlt] using hm.symm
                  exact Or.inl (by rw [← hmd2, he2])
      · intro x hx
        rcases List.mem_cons.mp hx with hxa | hxl
        · exact hxa ▸ le_trans ham hmd
        · exact hub x hxl

theorem mem_completedFiltered (uids : List String) (ps : List PurchaseRow)
    (uid : String) (q : PurchaseRow) :
    q ∈ (completedPurchasesFor uids ps).filter (fun r => r.user_id == uid) ↔
      (q ∈ ps ∧ q.status = "completed" ∧ q.user_id = uid ∧ uid ∈ uids) := by
  have hcont : ∀ (l : List String) (a : String), l.contains a = true ↔ a ∈ l := by
    intro l a; simp
  simp only [completedPurchasesFor, List.mem_filter, Bool.and_eq_true, beq_iff_eq]
  constructor
  · rintro ⟨⟨hq, hst, hmem⟩, huid⟩
    exact ⟨hq, hst, huid, huid ▸ (hcont _ _).mp hmem⟩
  · rintro ⟨hq, hst, huid, hmem⟩
    exact ⟨⟨hq, hst, (hcont _ _).mpr (huid ▸ hmem)⟩, huid⟩

theorem userIdToLatestPurchase_isSome (uids : List String) (ps : List PurchaseRow)
    (uid : String) :
    (userIdToLatestPurchase uids ps uid).isSome = true ↔
      (uid ∈ uids ∧ ∃ p ∈ ps, p.status = "completed" ∧ p.user_id = uid) := by
  have heq : userIdToLatestPurchase uids ps uid =
      mergeMax none
        (((completedPurchasesFor uids ps).filter (fun r => r.user_id == uid)).map
          purchaseDate) :=
    latestFold_apply _ _ _
  rw [heq]
  constructor
  · intro h
    obtain ⟨d, hd⟩ := Option.isSome_iff_exists.mp h
    obtain ⟨hmem, _, _⟩ := mergeMax_spec _ _ _ hd
    rcases hmem with hn | hmeml
    · cases hn
    · obtain ⟨q, hq, _⟩ := List.mem_map.mp hmeml
      obtain ⟨hqps, hqst, hquid, huids⟩ := (mem_completedFiltered uids ps uid q).mp hq
      exact ⟨huids, q, hqps, hqst, hquid⟩
  · rintro ⟨huids, p, hp, hst, hpu⟩
    have hq : p ∈ (completedPurchasesFor uids ps).filter (fun r => r.user_id == uid) :=
      (mem_completedFiltered uids ps uid p).mpr ⟨hp, hst, hpu, huids⟩
    have hne : ((completedPurchasesFor uids ps).filter
        (fun r => r.user_id == uid)).map purchaseDate ≠ [] := by
      intro hnil
      rw [List.map_eq_nil_iff] at hnil
      rw [hnil] at hq
      cases hq
    cases hs : mergeMax none
        (((completedPurchasesFor uids ps).filter (fun r => r.user_id == uid)).map
          purchaseDate) with
    | none => exact absurd ((mergeMax_eq_none _ _).mp hs).2 hne
    | some d => rfl

theorem userIdToLatestPurchase_max (uids : List String) (ps : List PurchaseRow)
    (uid : String) (d : Int)
    (h : userIdToLatestPurchase uids ps uid = some d) :
    (∃ p ∈ ps, p.status = "completed" ∧ p.user_id = uid ∧ purchaseDate p = d) ∧
    (∀ p ∈ ps, p.status = "completed" → p.user_id = uid → purchaseDate p ≤ d) := by
  have heq : userIdToLatestPurchase uids ps uid =
      mergeMax none
        (((completedPurchasesFor uids ps).filter (fun r => r.user_id == uid)).map
          purchaseDate) :=
    latestFold_apply _ _ _
  rw [heq] at h
  obtain ⟨hmem, hub, _⟩ := mergeMax_spec _ _ _ h
  have hdl : d ∈ ((completedPurchasesFor uids ps).filter
      (fun r => r.user_id == uid)).map purchaseDate := by
    rcases hmem with hn | hl
    · cases hn
    · exact hl
  obtain ⟨q, hq, hqd⟩ := List.mem_map.mp hdl
  obtain ⟨hqps, hqst, hquid, huids⟩ := (mem_completedFiltered uids ps uid q).mp hq
  refine ⟨⟨q, hqps, hqst, hquid, hqd⟩, ?_⟩
  intro p hp hst hpu
  have hpq : p ∈ (completedPurchasesFor uids ps).filter (fun r => r.user_id == uid) :=
    (mem_completedFiltered uids ps uid p).mpr ⟨hp, hst, hpu, huids⟩
  exact hub _ (List.mem_map.mpr ⟨p, hpq, rfl⟩)

theorem balanceLe_imp_claimOrder (latest : String → Option Int)
    (x y : CreditBalanceRow) (h : balanceLe latest x y) : claimOrder latest x y := by
  unfold balanceLe tupLe sort_key at h
  unfold claimOrder
  rcases hx : latest x.user_id with _ | dx <;> rcases hy : latest y.user_id with _ | dy <;>
      simp only [hx, hy] at h ⊢ <;> first | trivial | omega

/-- Claim C3: for every set of balance rows and purchase records,
get_credit_balances partitions the balances into those with at least one
completed purchase (group A, those with a latest purchase date) and those
without (group B); the userIdToLatestPurchase lookup is populated for exactly
the ids with a completed purchase record and holds the most recent purchase
date (completed_at, falling back to created_at); the sorted output is a
permutation of the input in which every group A balance precedes every group B
balance, group A is ordered by latest purchase date descending and group B by
the balance's own last_updated descending. -/
theorem get_credit_balances_ordering_c3 (rows : List CreditBalanceRow)
    (ps : List PurchaseRow) :
    (∀ uid, (userIdToLatestPurchase (rows.map (fun r => r.user_id)) ps uid).isSome = true ↔
       (uid ∈ rows.map (fun r => r.user_id) ∧
        ∃ p ∈ ps, p.status = "completed" ∧ p.user_id = uid)) ∧
    (∀ uid d, userIdToLatestPurchase (rows.map (fun r => r.user_id)) ps uid = some d →
       (∃ p ∈ ps, p.status = "completed" ∧ p.user_id = uid ∧ purchaseDate p = d) ∧
       (∀ p ∈ ps, p.status = "completed" → p.user_id = uid → purchaseDate p ≤ d)) ∧
    (sortBalances rows (userIdToLatestPurchase (rows.map (fun r => r.user_id)) ps)).Perm
      rows ∧
    List.Pairwise (claimOrder (userIdToLatestPurchase (rows.map (fun r => r.user_id)) ps))
      (sortBalances rows (userIdToLatestPurchase (rows.map (fun r => r.user_id)) ps)) := by
  refine ⟨fun uid => userIdToLatestPurchase_isSome _ _ _,
          fun uid d h => userIdToLatestPurchase_max _ _ _ _ h, ?_, ?_⟩
  · exact List.perm_insertionSort _ _
  · have hs := List.sorted_insertionSort
      (balanceLe (userIdToLatestPurchase (rows.map (fun r => r.user_id)) ps)) rows
    exact List.Pairwise.imp
      (fun hxy => balanceLe_imp_claimOrder _ _ _ hxy) hs

/-- Witness for the C3 theorem: a purchase-backed balance sorts by its latest
purchase date; the concrete store has balance "a" (one completed purchase at
time 10, last_updated 5) and balance "b" (no purchase, last_updated 99). -/
theorem get_credit_balances_ordering_c3_witness :
    (∃ p ∈ [PurchaseRow.mk "a" "completed" 3 (some 10)],
        p.status = "completed" ∧ p.user_id = "a" ∧ purchaseDate p = 10) ∧
    (∀ p ∈ [PurchaseRow.mk "a" "completed" 3 (some 10)],
        p.status = "completed" → p.user_id = "a" → purchaseDate p ≤ 10) :=
  (get_credit_balances_ordering_c3
      [⟨"a", 0, 0, 0, 5, ⟨none, none⟩⟩, ⟨"b", 0, 0, 0, 99, ⟨none, none⟩⟩]
      [⟨"a", "completed", 3, some 10⟩]).2.1 "a" 10 (by rfl)


theorem listUsersLoop_no_fail (dir : List AuthUser) (fail : Nat → Bool)
    (fallback : Except Unit (List AuthUser)) (hfail : ∀ p, fail p = false) :
    ∀ (fuel page : Nat) (acc : List AuthUser), 1 ≤ page →
      (dir.drop ((page - 1) * 1000)).length < fuel * 1000 →
      listUsersLoop dir fail fallback fuel page acc =
        .ok (acc ++ dir.drop ((page - 1) * 1000)) := by
  intro fuel
  induction fuel with
  | zero => intro page acc _ hlen; simp at hlen
  | succ fuel ih =>
      intro page acc hpage hlen
      rw [listUsersLoop]
      simp only [hfail page, if_false]
      by_cases hR : dir.drop ((page - 1) * 1000) = []
      · simp [pageSlice, hR]
      · have hne : ((dir.drop ((page - 1) * 1000)).take 1000).isEmpty = false := by
          simp [List.isEmpty_iff, List.take_eq_nil_iff, hR]
        by_cases hshort : (dir.drop ((page - 1) * 1000)).length < 1000
        · have htake : (dir.drop ((page - 1) * 1000)).take 1000 =
              dir.drop ((page - 1) * 1000) :=
            List.take_of_length_le (by omega)
          simp only [pageSlice, hne, Bool.false_eq_true, if_false]
          rw [htake, if_pos hshort]
        · have hlen1000 : ((dir.drop ((page - 1) * 1000)).take 1000).length = 1000 := by
            rw [List.length_take]
            omega
          have hidx : (page + 1 - 1) * 1000 = (page - 1) * 1000 + 1000 := by omega
          have hdrop2 : dir.drop ((page + 1 - 1) * 1000) =
              (dir.drop ((page - 1) * 1000)).drop 1000 := by
            rw [List.drop_drop, hidx]
          have hfuel2 : (dir.drop ((page + 1 - 1) * 1000)).length < fuel * 1000 := by
            rw [hdrop2, List.length_drop]
            omega
          have hrec := ih (page + 1) (acc ++ (dir.drop ((page - 1) * 1000)).take 1000)
            (by omega) hfuel2
          simp only [pageSlice, hne, Bool.false_eq_true, if_false]
          rw [hlen1000, if_neg (lt_irrefl 1000), hrec, hdrop2, List.append_assoc,
            List.take_append_drop]


theorem listUsersLoop_fail_later (dir : List AuthUser) (fail : Nat → Bool)
    (fallback : Except Unit (List AuthUser)) (j : Nat) (hj : 1 ≤ j)
    (hfj : fail (j + 1) = true)
    (hok : ∀ p, 1 ≤ p → p ≤ j → fail p = false)
    (hlen : j * 1000 ≤ dir.length) :
    ∀ (fuel page : Nat), 1 ≤ page → page ≤ j + 1 → j + 2 - page ≤ fuel →
      listUsersLoop dir fail fallback fuel page (dir.take ((page - 1) * 1000)) =
        .ok (dir.take (j * 1000)) := by
  intro fuel
  induction fuel with
  | zero => intro page h1 h2 h3; omega
  | succ fuel ih =>
      intro page h1 h2 h3
      rw [listUsersLoop]
      by_cases hpj : page = j + 1
      · subst hpj
        have hne1 : ¬ (j + 1 = 1) := by omega
        simp only [hfj, if_true, if_neg hne1]
        have hidx2 : (j + 1 - 1) * 1000 = j * 1000 := by omega
        rw [hidx2]
      · have hple : page ≤ j := by omega
        have hfp : fail page = false := hok page h1 hple
        simp only [hfp, Bool.false_eq_true, if_false]
        have hslicelen : (pageSlice dir page).length = 1000 := by
          simp only [pageSlice, List.length_take, List.length_drop]
          omega
        have hne : (pageSlice dir page).isEmpty = false := by
          cases hsl : pageSlice dir page with
          | nil => rw [hsl] at hslicelen; simp at hslicelen
          | cons a l => rfl
        simp only [hne, Bool.false_eq_true, if_false]
        rw [hslicelen, if_neg (lt_irrefl 1000)]
        have hacc : dir.take ((page - 1) * 1000) ++ pageSlice dir page =
            dir.take ((page + 1 - 1) * 1000) := by
          have hidx3 : (page + 1 - 1) * 1000 = (page - 1) * 1000 + 1000 := by omega
          rw [hidx3, List.take_add]
          rfl
        rw [hacc]
        exact ih (page + 1) (by omega) (by omega) (by omega)

theorem listUsersLoop_fail_first (dir : List AuthUser) (fail : Nat → Bool)
    (fallback : Except Unit (List AuthUser)) (hf1 : fail 1 = true) :
    (fallback = .error () → get_user_profiles_auth_users dir fail fallback = .error ()) ∧
    (∀ l, fallback = .ok l → l.length < 1000 →
       get_user_profiles_auth_users dir fail fallback = .ok l) := by
  constructor
  · intro hfb
    unfold get_user_profiles_auth_users
    rw [listUsersLoop]
    simp [hf1, hfb]
  · intro l hfb hlen
    unfold get_user_profiles_auth_users
    rw [listUsersLoop]
    simp only [hf1, if_true, hfb, if_pos rfl]
    by_cases hl : l = []
    · subst hl; simp
    · have hle : l.isEmpty = false := by simp [List.isEmpty_iff, hl]
      simp [hle, hlen]

/-- Claim C6: identity-directory enumeration paginates with a fixed page size
of 1000, continuing while a page returns a full page and stopping on a short
or empty page (a failure-free run returns the whole directory); when fetching
page 1 fails, the loop falls back to a single unpaginated call (whose error,
if any, propagates); when fetching a page at 2 or beyond fails, the loop stops
and returns the identities accumulated from the earlier pages. -/
theorem get_user_profiles_pagination_c6 (dir : List AuthUser) (fail : Nat → Bool)
    (fallback : Except Unit (List AuthUser)) :
    ((∀ p, fail p = false) → get_user_profiles_auth_users dir fail fallback = .ok dir) ∧
    (fail 1 = true → fallback = .error () →
       get_user_profiles_auth_users dir fail fallback = .error ()) ∧
    (fail 1 = true → ∀ l, fallback = .ok l → l.length < 1000 →
       get_user_profiles_auth_users dir fail fallback = .ok l) ∧
    (∀ j, 1 ≤ j → fail (j + 1) = true → (∀ p, 1 ≤ p → p ≤ j → fail p = false) →
       j * 1000 ≤ dir.length →
       get_user_profiles_auth_users dir fail fallback = .ok (dir.take (j * 1000))) := by
  refine ⟨?_, ?_, ?_, ?_⟩
  · intro hfail
    unfold get_user_profiles_auth_users
    have h := listUsersLoop_no_fail dir fail fallback hfail (dir.length + 2) 1 []
      (le_refl 1) (by simp; omega)
    simpa using h
  · intro hf1 hfb
    exact (listUsersLoop_fail_first dir fail fallback hf1).1 hfb
  · intro hf1 l hfb hlen
    exact (listUsersLoop_fail_first dir fail fallback hf1).2 l hfb hlen
  · intro j hj hfj hok hlen
    unfold get_user_profiles_auth_users
    have h := listUsersLoop_fail_later dir fail fallback j hj hfj hok hlen
      (dir.length + 2) 1 (le_refl 1) (by omega) (by omega)
    simpa using h

/-- Witness for the C6 theorem: a one-user directory with no failures is
returned whole; a directory whose page 1 and fallback both fail errors out. -/
theorem get_user_profiles_pagination_c6_witness :
    get_user_profiles_auth_users [⟨some "u", some "u@x.com", none⟩]
        (fun _ => false) (.error ()) = .ok [⟨some "u", some "u@x.com", none⟩] ∧
    get_user_profiles_auth_users [] (fun _ => true) (.error ()) = .error () :=
  ⟨(get_user_profiles_pagination_c6 [⟨some "u", some "u@x.com", none⟩]
      (fun _ => false) (.error ())).1 (fun _ => rfl),
   (get_user_profiles_pagination_c6 [] (fun _ => true) (.error ())).2.1 rfl rfl⟩

/-- Counterexample to claim C5 as stated: on the given input parse_email_text
does not return the claimed triple, because the signoff comes out as
"Thanks,\nThe Helium Team" and not "Thanks,<br>The Helium Team" (the two
signoff lines sit in one paragraph separated by a single newline, and the
inline search of line 93 cannot cross that newline). -/
theorem parse_email_text_c5_counterexample :
    parse_email_text "Hi team,\n\nBody line one.\n\nThanks,\nThe Helium Team" ≠
      ⟨"Hi team,", ["Body line one."], "Thanks,<br>The Helium Team"⟩ := by
  decide

/-- Claim C5 (amended): parse_email_text applied to the input consisting of
"Hi team,", blank line, "Body line one.", blank line, "Thanks," newline
"The Helium Team" returns greeting "Hi team,", paragraphs ["Body line one."],
and signoff "Thanks," followed by a literal newline and "The Helium Team"
(not joined with a br tag: the join only happens when the two lines are
separate paragraphs or sit on one line). -/
theorem parse_email_text_c5_amended :
    parse_email_text "Hi team,\n\nBody line one.\n\nThanks,\nThe Helium Team" =
      ⟨"Hi team,", ["Body line one."], "Thanks,\nThe Helium Team"⟩ := by
  decide

theorem truthy_ne {o : Option String} {n : String} (h : truthy o = some n) :
    n ≠ "" := by
  cases o with
  | none => cases h
  | some s =>
      simp only [truthy] at h
      by_cases hs : s = ""
      · rw [if_pos hs] at h; cases h
      · rw [if_neg hs] at h; cases h; exact hs

theorem orElse_cases {a b : Option String} {n : String}
    (h : (a <|> b) = some n) : a = some n ∨ (a = none ∧ b = some n) := by
  cases a <;> simp_all


/-- Counterexample to claim C1 as stated: for an identity whose directory
metadata carries full_name "Dir Name" while its profile carries
preferred_name "Pref", the claim's priority order (directory first) yields
"Dir Name", but get_credit_balances resolves the display name to "Pref" -
the profile store overrides the directory, not the other way round. -/
theorem name_priority_c1_counterexample :
    (get_credit_balances_names
        [⟨"u1", 0, 0, 0, 0, ⟨none, none⟩⟩]
        [⟨some "u1", none, some ⟨some "Dir Name", none, none, none, none, none⟩⟩]
        [⟨"u1", none, some "Pref"⟩] []).map (fun e => e.2.2) = ["Pref"] ∧
    claimC1Name (some ⟨some "Dir Name", none, none, none, none, none⟩)
        (some ⟨"u1", none, some "Pref"⟩) = some "Dir Name" ∧
    ("Pref" : String) ≠ "Dir Name" := by
  refine ⟨by decide, by decide, by decide⟩

theorem step1Balances_single (uid : String) (huid : uid ≠ "") (em : Option String)
    (md : Option UserMetadata) :
    step1Balances [uid] [⟨some uid, em, md⟩] ([], []) =
      ((match truthy em with
        | some e => [(uid, e)]
        | none => []),
       (match md with
        | some m => (match authNameBalances m with
            | some n => [(uid, n)]
            | none => [])
        | none => [])) := by
  have hu : truthy (some uid) = some uid := by simp [truthy, huid]
  unfold step1Balances
  simp only [List.foldl_cons, List.foldl_nil]
  unfold step1BalancesStep
  rcases hem : truthy em with _ | e <;> rcases md with _ | m
  · simp [hu, hem]
  · rcases han : authNameBalances m with _ | n <;> simp [hu, hem, han, dinsert]
  · simp [hu, hem, dinsert]
  · rcases han : authNameBalances m with _ | n <;> simp [hu, hem, han, dinsert]


theorem step1Purchases_single (uid : String) (huid : uid ≠ "") (em : Option String)
    (md : Option UserMetadata) :
    step1Purchases [uid] [⟨some uid, em, md⟩] ([], []) =
      ((match truthy em with
        | some e => [(uid, e)]
        | none => []),
       (match md with
        | some m => (match authNamePurchases m with
            | some n => [(uid, n)]
            | none => [])
        | none => [])) := by
  have hu : truthy (some uid) = some uid := by simp [truthy, huid]
  unfold step1Purchases
  rcases hem : truthy em with _ | e <;> rcases md with _ | m <;>
    simp [hu, hem, dinsert]

theorem step2Profiles_single (uid : String) (fn pn : Option String)
    (nm : List (String × String)) :
    step2Profiles [uid] [⟨uid, fn, pn⟩] nm =
      (match truthy pn <|> truthy fn with
       | some n => dinsert nm uid n
       | none => nm) := by
  unfold step2Profiles
  rcases hp : truthy pn <|> truthy fn with _ | n <;> simp [hp]

theorem step3Waitlist_nil (user_ids : List String)
    (emailMap nm : List (String × String)) :
    step3Waitlist user_ids [] emailMap nm = nm := by
  unfold step3Waitlist
  split
  · have hfold : ∀ (l nm0 : List (String × String)),
        l.foldl (fun nm p =>
          match dlookup [] p.2 with
          | some n => if (dlookup nm p.1).isNone then dinsert nm p.1 n else nm
          | none => nm) nm0 = nm0 := by
      intro l
      induction l with
      | nil => intro nm0; rfl
      | cons a l ih => intro nm0; exact ih nm0
    simpa using hfold emailMap nm
  · rfl


theorem authNameBalances_ne {m : UserMetadata} {n : String}
    (h : authNameBalances m = some n) : n ≠ "" := by
  unfold authNameBalances at h
  rcases orElse_cases h with h1 | ⟨_, h⟩
  · exact truthy_ne h1
  rcases orElse_cases h with h1 | ⟨_, h⟩
  · exact truthy_ne h1
  rcases orElse_cases h with h1 | ⟨_, h⟩
  · exact truthy_ne h1
  rcases orElse_cases h with h1 | ⟨_, h⟩
  · cases hc : ((truthy m.first_name).isSome || (truthy m.last_name).isSome) with
    | true => rw [if_pos hc] at h1; exact truthy_ne h1
    | false => rw [if_neg (by simp [hc])] at h1; cases h1
  rcases orElse_cases h with h1 | ⟨_, h⟩
  · exact truthy_ne h1
  · exact truthy_ne h

theorem authNamePurchases_ne {m : UserMetadata} {n : String}
    (h : authNamePurchases m = some n) : n ≠ "" := by
  unfold authNamePurchases at h
  rcases orElse_cases h with h1 | ⟨_, h⟩
  · exact truthy_ne h1
  rcases orElse_cases h with h1 | ⟨_, h⟩
  · exact truthy_ne h1
  rcases orElse_cases h with h1 | ⟨_, h⟩
  · exact truthy_ne h1
  · exact truthy_ne h

theorem profileName_ne {pn fn : Option String} {n : String}
    (h : (truthy pn <|> truthy fn) = some n) : n ≠ "" := by
  rcases orElse_cases h with h1 | ⟨_, h2⟩
  · exact truthy_ne h1
  · exact truthy_ne h2



/-- Claim C1 (amended): the display name is chosen profile-store-first: the
profile's preferred_name (else full_name) wins whenever non-empty, and only
when the profile supplies no name does the identity-directory metadata chain
apply; that chain is full_name, name, display_name, trimmed
first_name+last_name, first_name, last_name in get_credit_balances (no
preferred_name key there) and full_name, name, preferred_name, display_name
in get_credit_purchases (no first/last names there), first non-empty wins. -/
theorem name_priority_c1_amended (uid : String) (huid : uid ≠ "")
    (em : Option String) (md : Option UserMetadata) (fn pn : Option String)
    (bal : CreditBalanceRow) (hbal : bal.user_id = uid)
    (prow : PurchaseRow) (hprow : prow.user_id = uid) :
    (∀ n, (truthy pn <|> truthy fn) = some n →
       (get_credit_balances_names [bal] [⟨some uid, em, md⟩] [⟨uid, fn, pn⟩] []).map
         (fun e => e.2.2) = [n]) ∧
    ((truthy pn <|> truthy fn) = none →
       ∀ m n, md = some m → authNameBalances m = some n →
       (get_credit_balances_names [bal] [⟨some uid, em, md⟩] [⟨uid, fn, pn⟩] []).map
         (fun e => e.2.2) = [n]) ∧
    (∀ n, (truthy pn <|> truthy fn) = some n →
       (get_credit_purchases_names [prow] [⟨some uid, em, md⟩] [⟨uid, fn, pn⟩]).map
         (fun e => e.2.2) = [some n]) ∧
    ((truthy pn <|> truthy fn) = none →
       ∀ m n, md = some m → authNamePurchases m = some n →
       (get_credit_purchases_names [prow] [⟨some uid, em, md⟩] [⟨uid, fn, pn⟩]).map
         (fun e => e.2.2) = [some n]) := by
  refine ⟨?_, ?_, ?_, ?_⟩
  · intro n hpn
    have hne : n ≠ "" := profileName_ne hpn
    unfold get_credit_balances_names
    simp only [List.map_cons, List.map_nil, hbal]
    rw [step1Balances_single uid huid em md, step2Profiles_single, hpn,
      step3Waitlist_nil]
    rcases md with _ | m
    · simp [resolveBalanceRowName, dinsert, dlookup, List.find?, truthy, hne]
    · rcases han : authNameBalances m with _ | n2 <;>
        simp [resolveBalanceRowName, dinsert, dlookup, List.find?, truthy, hne, han]
  · intro hpn m n hmd han
    subst hmd
    have hne : n ≠ "" := authNameBalances_ne han
    unfold get_credit_balances_names
    simp only [List.map_cons, List.map_nil, hbal]
    rw [step1Balances_single uid huid em (some m), step2Profiles_single, hpn,
      step3Waitlist_nil]
    simp [han, resolveBalanceRowName, dlookup, List.find?, truthy, hne]
  · intro n hpn
    have hne : n ≠ "" := profileName_ne hpn
    unfold get_credit_purchases_names
    simp only [List.map_cons, List.map_nil, hprow]
    rw [step1Purchases_single uid huid em md, step2Profiles_single, hpn]
    rcases md with _ | m
    · simp [dinsert, dlookup, List.find?]
    · rcases han : authNamePurchases m with _ | n2 <;>
        simp [dinsert, dlookup, List.find?, han]
  · intro hpn m n hmd han
    subst hmd
    unfold get_credit_purchases_names
    simp only [List.map_cons, List.map_nil, hprow]
    rw [step1Purchases_single uid huid em (some m), step2Profiles_single, hpn]
    simp [han, dlookup, List.find?]



/-- Witness for the amended C1 theorem: with directory full_name "Dir Name"
and profile preferred_name "Pref" the resolved name is "Pref". -/
theorem name_priority_c1_amended_witness :
    (get_credit_balances_names [⟨"u1", 0, 0, 0, 0, ⟨none, none⟩⟩]
        [⟨some "u1", none, some ⟨some "Dir Name", none, none, none, none, none⟩⟩]
        [⟨"u1", none, some "Pref"⟩] []).map (fun e => e.2.2) = ["Pref"] :=
  (name_priority_c1_amended "u1" (by decide) none
      (some ⟨some "Dir Name", none, none, none, none, none⟩) none (some "Pref")
      ⟨"u1", 0, 0, 0, 0, ⟨none, none⟩⟩ rfl ⟨"u1", "completed", 0, none⟩ rfl).1
    "Pref" (by decide)

theorem mem_dinsert {m : List (String × String)} {k v : String}
    {p : String × String} (h : p ∈ dinsert m k v) : p.2 = v ∨ p ∈ m := by
  unfold dinsert at h
  by_cases hany : m.any (fun q => q.1 == k) = true
  · rw [if_pos hany] at h
    obtain ⟨q, hq, hpq⟩ := List.mem_map.mp h
    by_cases hqk : (q.1 == k) = true
    · rw [if_pos hqk] at hpq; left; rw [← hpq]
    · rw [if_neg hqk] at hpq; right; rw [← hpq]; exact hq
  · rw [if_neg hany] at h
    rcases List.mem_append.mp h with h1 | h2
    · right; exact h1
    · left; cases List.mem_singleton.mp h2; rfl

theorem step1BalancesStep_email_sound (user_ids : List String)
    (maps : List (String × String) × List (String × String)) (u : AuthUser)
    (p : String × String) (h : p ∈ (step1BalancesStep user_ids maps u).1) :
    p ∈ maps.1 ∨ truthy u.email = some p.2 := by
  unfold step1BalancesStep at h
  rcases hid : truthy u.id with _ | uid
  · simp only [hid] at h; exact Or.inl h
  · simp only [hid] at h
    by_cases hc : user_ids.contains uid = true
    · rw [if_pos hc] at h
      rcases hem : truthy u.email with _ | e
      · simp only [hem] at h; exact Or.inl h
      · simp only [hem] at h
        rcases mem_dinsert h with h1 | h2
        · exact Or.inr (congrArg some h1.symm)
        · exact Or.inl h2
    · rw [if_neg hc] at h; exact Or.inl h

theorem step1Balances_email_sound (user_ids : List String) (users : List AuthUser) :
    ∀ (maps : List (String × String) × List (String × String))
      (p : String × String), p ∈ (step1Balances user_ids users maps).1 →
      p ∈ maps.1 ∨ ∃ u ∈ users, truthy u.email = some p.2 := by
  induction users with
  | nil => intro maps p h; exact Or.inl h
  | cons u users ih =>
      intro maps p h
      have hstep : step1Balances user_ids (u :: users) maps =
          step1Balances user_ids users (step1BalancesStep user_ids maps u) := rfl
      rw [hstep] at h
      rcases ih _ p h with h1 | ⟨v, hv, hve⟩
      · rcases step1BalancesStep_email_sound user_ids maps u p h1 with h2 | h2
        · exact Or.inl h2
        · exact Or.inr ⟨u, List.mem_cons_self u users, h2⟩
      · exact Or.inr ⟨v, List.mem_cons_of_mem u hv, hve⟩

theorem resolveBalanceRowName_fst (emailMap nameMap : List (String × String))
    (uid : String) :
    (resolveBalanceRowName emailMap nameMap uid).1 =
      truthy (dlookup emailMap uid) := by
  unfold resolveBalanceRowName
  rcases h0 : truthy (dlookup nameMap uid) with _ | n
  · rcases h1 : truthy (dlookup emailMap uid) with _ | e <;>
      simp [h0, h1] <;> rcases h2 : emailLocalPartName e.data with _ | nm <;> simp [h2]
  · simp [h0]


theorem dlookup_eq_some {m : List (String × String)} {k s : String}
    (h : dlookup m k = some s) : ∃ q ∈ m, q.2 = s := by
  unfold dlookup at h
  rcases hf : m.find? (fun p => p.1 == k) with _ | q
  · rw [hf] at h; cases h
  · rw [hf] at h
    exact ⟨q, List.mem_of_find?_eq_some hf, by cases h; rfl⟩


/-- Claim C7 (amended): in the credit-balance results an identity whose email
is not found in the directory keeps a null user_email, and any non-null
user_email is the truthy email of some directory user (no synthesis).  In the
user-profile results, however, transform_user_profile substitutes the
placeholder string "Email not available" when the email is absent (the
response field there is a non-nullable string). -/
theorem email_no_synthesis_c7 :
    (∀ (rows : List CreditBalanceRow) (users : List AuthUser)
       (profiles : List ProfileNameRow) (waitlist : List WaitlistRow)
       (e : String × Option String × String),
       e ∈ get_credit_balances_names rows users profiles waitlist →
       e.2.1 = none ∨ ∃ u ∈ users, truthy u.email = e.2.1) ∧
    (∀ (row : ProfileTableRow) (em : Option String),
       (transform_user_profile row em).email =
         (truthy em).getD "Email not available") := by
  constructor
  · intro rows users profiles waitlist e he
    simp only [get_credit_balances_names, List.mem_map] at he
    obtain ⟨r, hr, hre⟩ := he
    rw [← hre]
    simp only [resolveBalanceRowName_fst]
    rcases hdl : dlookup (step1Balances (rows.map (fun r => r.user_id)) users ([], [])).1
        r.user_id with _ | s
    · left; rw [hdl]; rfl
    · rw [hdl]
      by_cases hs : s = ""
      · left; simp [truthy, hs]
      · right
        obtain ⟨q, hq, hqs⟩ := dlookup_eq_some hdl
        rcases step1Balances_email_sound (rows.map (fun r => r.user_id)) users
            ([], []) q hq with h0 | ⟨u, hu, hue⟩
        · cases h0
        · exact ⟨u, hu, by rw [hue, hqs]; simp [truthy, hs]⟩
  · intro row em
    rfl


/-- Counterexample to claim C7 as stated: a profile row whose identity has no
directory email is returned with the synthesized placeholder string
"Email not available" in its email field, not with a null. -/
theorem transform_user_profile_c7_counterexample :
    (transform_user_profile
        ⟨"p1", "u1", "Jane", "Jane", "", none, 0, 0, none, none, none, none,
         none, none, none⟩ none).email = "Email not available" := rfl

/-- Witness for the amended C7 theorem: in a store with one balance row and
an empty directory, the returned entry carries a null email. -/
theorem email_no_synthesis_c7_witness :
    ((("u1", (none : Option String), "User u1") :
        String × Option String × String).2.1 = none) ∨
      ∃ u ∈ ([] : List AuthUser), truthy u.email =
        (("u1", (none : Option String), "User u1") :
          String × Option String × String).2.1 :=
  email_no_synthesis_c7.1 [⟨"u1", 0, 0, 0, 0, ⟨none, none⟩⟩] [] [] []
    ("u1", none, "User u1") (by decide)
